import Mathlib

/-!
Shallow embedding of the TrackFlow escrow engine (the Solidity contract in
`src/unnamed/part_000`, the canonical CREATED → ACTIVE → COMPLETED generation).

Modelling conventions:
* `Address` and hash digests are `Nat` (the zero address is `0`);
  byte strings are `List Nat`.
* `keccak256` is an arbitrary function parameter `keccak : Bytes → Hash`;
  nothing below depends on its concrete value, only on the source's usage
  (hash of `abi.encodePacked(contractId, location, verifier)` at creation,
  hash of the presented `qrData` at verification).
* The storage mapping `contracts : mapping(uint256 => LogisticsContract)`
  together with the counter `nextContractId` is represented by an
  append-only list indexed by contract id: ids are allocated sequentially
  from 0 and the counter always equals the number of created records, so
  the list index is exactly the contract id and `nextContractId` is the
  list length.  A lookup of a never-created id yields the all-zero default
  record, exactly as a Solidity mapping does.
* Every `require(cond, msg)` is an early `Except.error msg`; a reverted
  call leaves the pre-state in force, which `applyOp` makes explicit by
  keeping the old state whenever an operation returns an error (EVM
  transaction-revert semantics).
* `msg.value` of `createContract` is the `value` argument; `msg.sender` is
  the `sender` argument; the low-level transfer
  `c.carrier.call{value: amount}("")` may fail at the environment's whim,
  modelled by the boolean argument `sent`.
-/

abbrev Address := Nat

abbrev Bytes := List Nat

abbrev Hash := Nat

/-- Contract status, `enum Status { CREATED, ACTIVE, COMPLETED }`. -/
inductive Status where
  | CREATED
  | ACTIVE
  | COMPLETED
deriving DecidableEq, Repr

/-- QR-verified milestone, `struct Milestone`. -/
structure Milestone where
  qrHash : Hash
  location : Bytes
  verifier : Address
  completed : Bool
deriving DecidableEq, Repr

/-- Main logistics contract record, `struct LogisticsContract`. -/
structure LogisticsContract where
  shipper : Address
  carrier : Address
  recipient : Address
  payment : Nat
  releasedAmount : Nat
  status : Status
  milestones : List Milestone
  completedMilestones : Nat
deriving DecidableEq, Repr

/-- The all-zero record a Solidity mapping returns for a never-written key
(`Status.CREATED` is the enum value 0). -/
def emptyContract : LogisticsContract :=
  { shipper := 0, carrier := 0, recipient := 0, payment := 0,
    releasedAmount := 0, status := Status.CREATED,
    milestones := [], completedMilestones := 0 }

/-- Whole-engine storage: the registry of created contracts, indexed by
contract id (see the modelling note on `nextContractId`). -/
structure TrackFlow where
  contracts : List LogisticsContract
deriving DecidableEq, Repr

/-- `uint256 public nextContractId`: ids are allocated sequentially, so the
counter equals the number of created records. -/
def TrackFlow.nextContractId (s : TrackFlow) : Nat :=
  s.contracts.length

/-- Reading `contracts[contractId]`: the stored record, or the all-zero
default for a never-created id. -/
def TrackFlow.lookup (s : TrackFlow) (contractId : Nat) : LogisticsContract :=
  s.contracts.getD contractId emptyContract

/-- Freshly deployed engine: no contracts, `nextContractId = 0`. -/
def initialState : TrackFlow := ⟨[]⟩

/-- Big-endian byte expansion of a number to a fixed width (the ABI encodes
`uint256` as 32 bytes and `address` as 20 bytes, most significant first). -/
def beBytes : Nat → Nat → Bytes
  | 0, _ => []
  | k + 1, v => beBytes k (v / 256) ++ [v % 256]

/-- `abi.encodePacked(contractId, locations[i], verifiers[i])`: 32-byte
`uint256`, then the raw string bytes, then the 20-byte address. -/
def encodePacked (contractId : Nat) (location : Bytes) (verifier : Address) : Bytes :=
  beBytes 32 contractId ++ location ++ beBytes 20 verifier

/-- The milestone records built by the creation loop: milestone `i` stores
`keccak256(abi.encodePacked(contractId, locations[i], verifiers[i]))`,
`locations[i]`, `verifiers[i]`, and `completed = false`. -/
def mkMilestones (keccak : Bytes → Hash) (contractId : Nat)
    (locations : List Bytes) (verifiers : List Address) : List Milestone :=
  List.zipWith
    (fun loc ver =>
      { qrHash := keccak (encodePacked contractId loc ver),
        location := loc, verifier := ver, completed := false })
    locations verifiers

/-- `createContract(carrier, recipient, locations, verifiers)`, payable,
with `sender = msg.sender` and `value = msg.value`.  Returns the new state
and the allocated contract id. -/
def createContract (keccak : Bytes → Hash) (s : TrackFlow)
    (sender carrier recipient : Address) (locations : List Bytes)
    (verifiers : List Address) (value : Nat) :
    Except String (TrackFlow × Nat) :=
  if value = 0 then .error "Payment required"
  else if carrier = 0 then .error "Invalid carrier"
  else if recipient = 0 then .error "Invalid recipient"
  else if locations = [] then .error "No milestones"
  else if locations.length ≠ verifiers.length then .error "Mismatched arrays"
  else
    let contractId := s.nextContractId
    let c : LogisticsContract :=
      { shipper := sender, carrier := carrier, recipient := recipient,
        payment := value, releasedAmount := 0, status := Status.CREATED,
        milestones := mkMilestones keccak contractId locations verifiers,
        completedMilestones := 0 }
    .ok (⟨s.contracts ++ [c]⟩, contractId)

/-- `acceptContract(contractId)` with `sender = msg.sender`: the carrier
takes the contract from CREATED to ACTIVE. -/
def acceptContract (s : TrackFlow) (sender : Address) (contractId : Nat) :
    Except String TrackFlow :=
  let c := s.lookup contractId
  if c.carrier ≠ sender then .error "Not the carrier"
  else if c.status ≠ Status.CREATED then .error "Invalid status"
  else .ok ⟨s.contracts.set contractId { c with status := Status.ACTIVE }⟩

/-- `verifyMilestone(contractId, milestoneIndex, qrData)` with
`sender = msg.sender`; `sent` is whether the low-level transfer to the
carrier succeeds.  Checks run in source order: status, index range,
strict order, not-yet-completed, designated verifier, QR hash; then the
milestone is completed, the release amount computed (floor split, with the
final milestone absorbing the remainder), the running total advanced, the
status closed out on the final milestone, and the funds sent — a failed
transfer reverts the whole call. -/
def verifyMilestone (keccak : Bytes → Hash) (s : TrackFlow) (sender : Address)
    (contractId milestoneIndex : Nat) (qrData : Bytes) (sent : Bool) :
    Except String TrackFlow :=
  let c := s.lookup contractId
  if c.status ≠ Status.ACTIVE then .error "Invalid status"
  else if h : milestoneIndex < c.milestones.length then
    if milestoneIndex ≠ c.completedMilestones then .error "Out of order"
    else
      let milestone := c.milestones.get ⟨milestoneIndex, h⟩
      if milestone.completed then .error "Already verified"
      else if milestone.verifier ≠ sender then .error "Not authorized"
      else if keccak qrData ≠ milestone.qrHash then .error "Invalid QR code"
      else
        let total := c.milestones.length
        let perMilestone := c.payment / total
        let amount :=
          if milestoneIndex = total - 1 then c.payment - c.releasedAmount
          else perMilestone
        let c' : LogisticsContract :=
          { c with
            milestones :=
              c.milestones.set milestoneIndex { milestone with completed := true },
            completedMilestones := c.completedMilestones + 1,
            releasedAmount := c.releasedAmount + amount,
            status :=
              if milestoneIndex = total - 1 then Status.COMPLETED else c.status }
        if sent then .ok ⟨s.contracts.set contractId c'⟩
        else .error "Failed to send payment"
  else .error "Invalid milestone"

/-- `getContract(contractId)`, view: returns
`(shipper, carrier, recipient, payment, status, totalMilestones,
completedMilestones)`.  The source has no existence check: a never-created
id yields the zeroed default record. -/
def getContract (s : TrackFlow) (contractId : Nat) :
    Address × Address × Address × Nat × Status × Nat × Nat :=
  let c := s.lookup contractId
  (c.shipper, c.carrier, c.recipient, c.payment, c.status,
   c.milestones.length, c.completedMilestones)

/-- `getMilestone(contractId, milestoneIndex)`, view: requires the index in
range, then returns `(location, verifier, completed)`. -/
def getMilestone (s : TrackFlow) (contractId milestoneIndex : Nat) :
    Except String (Bytes × Address × Bool) :=
  let c := s.lookup contractId
  if h : milestoneIndex < c.milestones.length then
    let m := c.milestones.get ⟨milestoneIndex, h⟩
    .ok (m.location, m.verifier, m.completed)
  else .error "Invalid milestone"

/-- The pure commitment check of §4.3, as the source performs it inline:
the presented bytes are accepted iff their hash equals the stored
commitment hash. -/
def qrCheck (keccak : Bytes → Hash) (qrData : Bytes) (m : Milestone) : Bool :=
  keccak qrData == m.qrHash

/-- One state-mutating call to the engine, with all the data the
environment chooses for it. -/
inductive Op where
  | create (sender carrier recipient : Address) (locations : List Bytes)
      (verifiers : List Address) (value : Nat)
  | accept (sender : Address) (contractId : Nat)
  | verify (sender : Address) (contractId milestoneIndex : Nat)
      (qrData : Bytes) (sent : Bool)

/-- Transaction semantics of one call: a successful call commits its new
state, a reverted call leaves the old state in force. -/
def applyOp (keccak : Bytes → Hash) (s : TrackFlow) : Op → TrackFlow
  | .create sender carrier recipient locations verifiers value =>
    match createContract keccak s sender carrier recipient locations verifiers value with
    | .ok (s', _) => s'
    | .error _ => s
  | .accept sender contractId =>
    match acceptContract s sender contractId with
    | .ok s' => s'
    | .error _ => s
  | .verify sender contractId milestoneIndex qrData sent =>
    match verifyMilestone keccak s sender contractId milestoneIndex qrData sent with
    | .ok s' => s'
    | .error _ => s

/-- Running a list of calls against the freshly deployed engine. -/
def execOps (keccak : Bytes → Hash) (ops : List Op) : TrackFlow :=
  ops.foldl (applyOp keccak) initialState

/-- States of the engine reachable by some sequence of calls. -/
inductive Reachable (keccak : Bytes → Hash) : TrackFlow → Prop where
  | init : Reachable keccak initialState
  | step (s : TrackFlow) (op : Op) :
      Reachable keccak s → Reachable keccak (applyOp keccak s op)
def newRecord (keccak : Bytes → Hash) (contractId : Nat)
    (sender carrier recipient : Address) (locations : List Bytes)
    (verifiers : List Address) (value : Nat) : LogisticsContract :=
  { shipper := sender, carrier := carrier, recipient := recipient,
    payment := value, releasedAmount := 0, status := Status.CREATED,
    milestones := mkMilestones keccak contractId locations verifiers,
    completedMilestones := 0 }

def advance (c : LogisticsContract) (idx : Nat) (m : Milestone) : LogisticsContract :=
  { c with
    milestones := c.milestones.set idx { m with completed := true },
    completedMilestones := c.completedMilestones + 1,
    releasedAmount := c.releasedAmount +
      (if idx = c.milestones.length - 1 then c.payment - c.releasedAmount
       else c.payment / c.milestones.length),
    status :=
      if idx = c.milestones.length - 1 then Status.COMPLETED else c.status }

/-- The inductive invariant each created record satisfies (indexed by its
contract id, which enters the commitment preimage). -/
def contractInv (keccak : Bytes → Hash) (cid : Nat) (c : LogisticsContract) : Prop :=
  0 < c.payment ∧
  0 < c.milestones.length ∧
  c.completedMilestones ≤ c.milestones.length ∧
  (∀ i (h : i < c.milestones.length),
      c.milestones[i].completed = decide (i < c.completedMilestones)) ∧
  (∀ i (h : i < c.milestones.length),
      c.milestones[i].qrHash =
        keccak (encodePacked cid c.milestones[i].location c.milestones[i].verifier)) ∧
  (c.status = Status.CREATED → c.completedMilestones = 0 ∧ c.releasedAmount = 0) ∧
  (c.status = Status.ACTIVE →
      c.completedMilestones < c.milestones.length ∧
      c.releasedAmount = c.payment / c.milestones.length * c.completedMilestones) ∧
  (c.status = Status.COMPLETED →
      c.completedMilestones = c.milestones.length ∧ c.releasedAmount = c.payment)

def stateInv (keccak : Bytes → Hash) (s : TrackFlow) : Prop :=
  ∀ cid (h : cid < s.contracts.length), contractInv keccak cid s.contracts[cid]

def demoHash : Bytes → Hash :=
  fun bs => bs.foldl (fun a b => a * 256 + b % 256 + 1) 1

def demoOps : List Op :=
  [ Op.create 10 2 3 [[65], [66], [67]] [4, 5, 4] 100,
    Op.accept 2 0,
    Op.verify 4 0 0 (encodePacked 0 [65] 4) true,
    Op.verify 5 0 1 (encodePacked 0 [66] 5) true,
    Op.verify 4 0 2 (encodePacked 0 [67] 4) true ]

def demoState (k : Nat) : TrackFlow :=
  execOps demoHash (demoOps.take k)

def soloOps : List Op :=
  [ Op.create 10 2 3 [[68]] [4] 7,
    Op.accept 2 0,
    Op.verify 4 0 0 (encodePacked 0 [68] 4) true ]

def dupOps : List Op :=
  [ Op.create 10 2 3 [[65], [65]] [4, 4] 10 ]

theorem isOk_ok {α : Type} (a : α) : (Except.ok a : Except String α).isOk = true := rfl

theorem isOk_error {α : Type} (e : String) : (Except.error e : Except String α).isOk = false := rfl

theorem lookup_lt (s : TrackFlow) (cid : Nat) (h : cid < s.contracts.length) :
    s.lookup cid = s.contracts[cid] :=
  List.getD_eq_getElem s.contracts emptyContract h

theorem lookup_ge (s : TrackFlow) (cid : Nat) (h : s.contracts.length ≤ cid) :
    s.lookup cid = emptyContract :=
  List.getD_eq_default s.contracts emptyContract h

theorem lookup_append_lt (s : TrackFlow) (c : LogisticsContract) (cid : Nat)
    (h : cid < s.contracts.length) :
    TrackFlow.lookup ⟨s.contracts ++ [c]⟩ cid = s.lookup cid := by
  have h' : cid < (s.contracts ++ [c]).length := by simp; omega
  rw [lookup_lt ⟨s.contracts ++ [c]⟩ cid h', lookup_lt s cid h]
  exact List.getElem_append_left h

theorem lookup_append_self (s : TrackFlow) (c : LogisticsContract) :
    TrackFlow.lookup ⟨s.contracts ++ [c]⟩ s.contracts.length = c := by
  have h' : s.contracts.length < (s.contracts ++ [c]).length := by simp
  rw [lookup_lt ⟨s.contracts ++ [c]⟩ s.contracts.length h']
  exact List.getElem_concat_length s.contracts c s.contracts.length rfl h'

theorem lookup_set_self (s : TrackFlow) (c : LogisticsContract) (cid : Nat)
    (h : cid < s.contracts.length) :
    TrackFlow.lookup ⟨s.contracts.set cid c⟩ cid = c := by
  have h' : cid < (s.contracts.set cid c).length := by
    rw [List.length_set]; exact h
  rw [lookup_lt ⟨s.contracts.set cid c⟩ cid h']
  exact List.getElem_set_self h'

theorem lookup_set_ne (s : TrackFlow) (c : LogisticsContract) (cid cid' : Nat)
    (h : cid' ≠ cid) :
    TrackFlow.lookup ⟨s.contracts.set cid c⟩ cid' = s.lookup cid' := by
  by_cases h' : cid' < s.contracts.length
  · have h'' : cid' < (s.contracts.set cid c).length := by
      rw [List.length_set]; exact h'
    rw [lookup_lt ⟨s.contracts.set cid c⟩ cid' h'', lookup_lt s cid' h']
    exact List.getElem_set_ne (Ne.symm h) h''
  · rw [lookup_ge s cid' (by omega)]
    exact List.getD_eq_default _ emptyContract (by rw [List.length_set]; omega)

theorem createContract_ok (keccak : Bytes → Hash) (s : TrackFlow)
    (sender carrier recipient : Address) (locations : List Bytes)
    (verifiers : List Address) (value : Nat)
    (hv : value ≠ 0) (hc : carrier ≠ 0) (hr : recipient ≠ 0)
    (hl : locations ≠ []) (hlen : locations.length = verifiers.length) :
    createContract keccak s sender carrier recipient locations verifiers value =
      .ok (⟨s.contracts ++
        [newRecord keccak s.contracts.length sender carrier recipient locations verifiers value]⟩,
        s.contracts.length) := by
  simp [createContract, hv, hc, hr, hl, hlen, TrackFlow.nextContractId, newRecord]

theorem createContract_err (keccak : Bytes → Hash) (s : TrackFlow)
    (sender carrier recipient : Address) (locations : List Bytes)
    (verifiers : List Address) (value : Nat)
    (hbad : value = 0 ∨ carrier = 0 ∨ recipient = 0 ∨ locations = [] ∨
      locations.length ≠ verifiers.length) :
    ∃ e, createContract keccak s sender carrier recipient locations verifiers value =
      .error e := by
  unfold createContract
  split_ifs <;> simp_all


theorem acceptContract_ok (s : TrackFlow) (sender : Address) (cid : Nat)
    (hcar : (s.lookup cid).carrier = sender)
    (hst : (s.lookup cid).status = Status.CREATED) :
    acceptContract s sender cid =
      .ok ⟨s.contracts.set cid { s.lookup cid with status := Status.ACTIVE }⟩ := by
  simp [acceptContract, hcar, hst]

theorem acceptContract_err_auth (s : TrackFlow) (sender : Address) (cid : Nat)
    (hcar : (s.lookup cid).carrier ≠ sender) :
    acceptContract s sender cid = .error "Not the carrier" := by
  simp [acceptContract, hcar]

theorem acceptContract_err_status (s : TrackFlow) (sender : Address) (cid : Nat)
    (hcar : (s.lookup cid).carrier = sender)
    (hst : (s.lookup cid).status ≠ Status.CREATED) :
    acceptContract s sender cid = .error "Invalid status" := by
  simp [acceptContract, hcar, hst]

theorem verifyMilestone_ok (keccak : Bytes → Hash) (s : TrackFlow)
    (sender : Address) (cid idx : Nat) (qr : Bytes)
    (hst : (s.lookup cid).status = Status.ACTIVE)
    (hidx : idx < (s.lookup cid).milestones.length)
    (hord : idx = (s.lookup cid).completedMilestones)
    (hcomp : (s.lookup cid).milestones[idx].completed = false)
    (hver : (s.lookup cid).milestones[idx].verifier = sender)
    (hqr : keccak qr = (s.lookup cid).milestones[idx].qrHash) :
    verifyMilestone keccak s sender cid idx qr true =
      .ok ⟨s.contracts.set cid
        (advance (s.lookup cid) idx (s.lookup cid).milestones[idx])⟩ := by
  subst hord
  simp [verifyMilestone, hst, hidx, hcomp, hver, hqr, advance]

theorem stateInv_initial (keccak : Bytes → Hash) : stateInv keccak initialState := by
  intro cid h
  simp [initialState] at h

theorem newRecord_inv (keccak : Bytes → Hash) (contractId : Nat)
    (sender carrier recipient : Address) (locations : List Bytes)
    (verifiers : List Address) (value : Nat)
    (hv : value ≠ 0) (hl : locations ≠ []) (hlen : locations.length = verifiers.length) :
    contractInv keccak contractId
      (newRecord keccak contractId sender carrier recipient locations verifiers value) := by
  have hmslen : (mkMilestones keccak contractId locations verifiers).length
      = locations.length := by
    simp [mkMilestones, hlen]
  refine ⟨Nat.pos_of_ne_zero hv, ?_, by simp [newRecord], ?_, ?_, by simp [newRecord],
    by simp [newRecord], by simp [newRecord]⟩
  · simp [newRecord, hmslen]
    exact List.length_pos.mpr hl
  · intro i h
    simp only [newRecord] at h ⊢
    simp [mkMilestones, List.getElem_zipWith]
  · intro i h
    simp only [newRecord] at h ⊢
    simp [mkMilestones, List.getElem_zipWith]

theorem verifyMilestone_err_status (keccak : Bytes → Hash) (s : TrackFlow)
    (sender : Address) (cid idx : Nat) (qr : Bytes) (sent : Bool)
    (hst : (s.lookup cid).status ≠ Status.ACTIVE) :
    verifyMilestone keccak s sender cid idx qr sent = .error "Invalid status" := by
  simp [verifyMilestone, hst]

theorem verifyMilestone_err_range (keccak : Bytes → Hash) (s : TrackFlow)
    (sender : Address) (cid idx : Nat) (qr : Bytes) (sent : Bool)
    (hst : (s.lookup cid).status = Status.ACTIVE)
    (hidx : ¬ idx < (s.lookup cid).milestones.length) :
    verifyMilestone keccak s sender cid idx qr sent = .error "Invalid milestone" := by
  simp [verifyMilestone, hst, hidx]

theorem verifyMilestone_err_order (keccak : Bytes → Hash) (s : TrackFlow)
    (sender : Address) (cid idx : Nat) (qr : Bytes) (sent : Bool)
    (hst : (s.lookup cid).status = Status.ACTIVE)
    (hidx : idx < (s.lookup cid).milestones.length)
    (hord : idx ≠ (s.lookup cid).completedMilestones) :
    verifyMilestone keccak s sender cid idx qr sent = .error "Out of order" := by
  simp [verifyMilestone, hst, hidx, hord]

theorem verifyMilestone_err_completed (keccak : Bytes → Hash) (s : TrackFlow)
    (sender : Address) (cid idx : Nat) (qr : Bytes) (sent : Bool)
    (hst : (s.lookup cid).status = Status.ACTIVE)
    (hidx : idx < (s.lookup cid).milestones.length)
    (hord : idx = (s.lookup cid).completedMilestones)
    (hcomp : (s.lookup cid).milestones[idx].completed = true) :
    verifyMilestone keccak s sender cid idx qr sent = .error "Already verified" := by
  subst hord
  simp [verifyMilestone, hst, hidx, hcomp]

theorem verifyMilestone_err_auth (keccak : Bytes → Hash) (s : TrackFlow)
    (sender : Address) (cid idx : Nat) (qr : Bytes) (sent : Bool)
    (hst : (s.lookup cid).status = Status.ACTIVE)
    (hidx : idx < (s.lookup cid).milestones.length)
    (hord : idx = (s.lookup cid).completedMilestones)
    (hcomp : (s.lookup cid).milestones[idx].completed = false)
    (hver : (s.lookup cid).milestones[idx].verifier ≠ sender) :
    verifyMilestone keccak s sender cid idx qr sent = .error "Not authorized" := by
  subst hord
  simp [verifyMilestone, hst, hidx, hcomp, hver]

theorem verifyMilestone_err_qr (keccak : Bytes → Hash) (s : TrackFlow)
    (sender : Address) (cid idx : Nat) (qr : Bytes) (sent : Bool)
    (hst : (s.lookup cid).status = Status.ACTIVE)
    (hidx : idx < (s.lookup cid).milestones.length)
    (hord : idx = (s.lookup cid).completedMilestones)
    (hcomp : (s.lookup cid).milestones[idx].completed = false)
    (hver : (s.lookup cid).milestones[idx].verifier = sender)
    (hqr : keccak qr ≠ (s.lookup cid).milestones[idx].qrHash) :
    verifyMilestone keccak s sender cid idx qr sent = .error "Invalid QR code" := by
  subst hord
  simp [verifyMilestone, hst, hidx, hcomp, hver, hqr]

theorem verifyMilestone_err_sent (keccak : Bytes → Hash) (s : TrackFlow)
    (sender : Address) (cid idx : Nat) (qr : Bytes)
    (hst : (s.lookup cid).status = Status.ACTIVE)
    (hidx : idx < (s.lookup cid).milestones.length)
    (hord : idx = (s.lookup cid).completedMilestones)
    (hcomp : (s.lookup cid).milestones[idx].completed = false)
    (hver : (s.lookup cid).milestones[idx].verifier = sender)
    (hqr : keccak qr = (s.lookup cid).milestones[idx].qrHash) :
    verifyMilestone keccak s sender cid idx qr false = .error "Failed to send payment" := by
  subst hord
  simp [verifyMilestone, hst, hidx, hcomp, hver, hqr]

theorem applyOp_create_err (keccak : Bytes → Hash) (s : TrackFlow)
    (sender carrier recipient : Address) (locations : List Bytes)
    (verifiers : List Address) (value : Nat) (e : String)
    (h : createContract keccak s sender carrier recipient locations verifiers value
      = .error e) :
    applyOp keccak s (.create sender carrier recipient locations verifiers value) = s := by
  simp only [applyOp]
  rw [h]

theorem applyOp_accept_err (keccak : Bytes → Hash) (s : TrackFlow)
    (sender : Address) (cid : Nat) (e : String)
    (h : acceptContract s sender cid = .error e) :
    applyOp keccak s (.accept sender cid) = s := by
  simp only [applyOp]
  rw [h]

theorem applyOp_verify_err (keccak : Bytes → Hash) (s : TrackFlow)
    (sender : Address) (cid idx : Nat) (qr : Bytes) (sent : Bool) (e : String)
    (h : verifyMilestone keccak s sender cid idx qr sent = .error e) :
    applyOp keccak s (.verify sender cid idx qr sent) = s := by
  simp only [applyOp]
  rw [h]

theorem applyOp_create_cases (keccak : Bytes → Hash) (s : TrackFlow)
    (sender carrier recipient : Address) (locations : List Bytes)
    (verifiers : List Address) (value : Nat) :
    applyOp keccak s (.create sender carrier recipient locations verifiers value) = s ∨
    (value ≠ 0 ∧ carrier ≠ 0 ∧ recipient ≠ 0 ∧ locations ≠ [] ∧
      locations.length = verifiers.length ∧
      applyOp keccak s (.create sender carrier recipient locations verifiers value) =
        ⟨s.contracts ++
          [newRecord keccak s.contracts.length sender carrier recipient
            locations verifiers value]⟩) := by
  by_cases hv : value = 0
  · exact Or.inl (applyOp_create_err keccak s _ _ _ _ _ _ _
      ((createContract_err keccak s sender carrier recipient locations verifiers value
        (Or.inl hv)).choose_spec))
  by_cases hc : carrier = 0
  · exact Or.inl (applyOp_create_err keccak s _ _ _ _ _ _ _
      ((createContract_err keccak s sender carrier recipient locations verifiers value
        (Or.inr (Or.inl hc))).choose_spec))
  by_cases hr : recipient = 0
  · exact Or.inl (applyOp_create_err keccak s _ _ _ _ _ _ _
      ((createContract_err keccak s sender carrier recipient locations verifiers value
        (Or.inr (Or.inr (Or.inl hr)))).choose_spec))
  by_cases hl : locations = []
  · exact Or.inl (applyOp_create_err keccak s _ _ _ _ _ _ _
      ((createContract_err keccak s sender carrier recipient locations verifiers value
        (Or.inr (Or.inr (Or.inr (Or.inl hl))))).choose_spec))
  by_cases hlen : locations.length = verifiers.length
  · refine Or.inr ⟨hv, hc, hr, hl, hlen, ?_⟩
    simp only [applyOp]
    rw [createContract_ok keccak s sender carrier recipient locations verifiers value
      hv hc hr hl hlen]
  · exact Or.inl (applyOp_create_err keccak s _ _ _ _ _ _ _
      ((createContract_err keccak s sender carrier recipient locations verifiers value
        (Or.inr (Or.inr (Or.inr (Or.inr hlen))))).choose_spec))

theorem applyOp_accept_cases (keccak : Bytes → Hash) (s : TrackFlow)
    (sender : Address) (cid : Nat) :
    applyOp keccak s (.accept sender cid) = s ∨
    ((s.lookup cid).carrier = sender ∧ (s.lookup cid).status = Status.CREATED ∧
      applyOp keccak s (.accept sender cid) =
        ⟨s.contracts.set cid { s.lookup cid with status := Status.ACTIVE }⟩) := by
  by_cases hcar : (s.lookup cid).carrier = sender
  · by_cases hst : (s.lookup cid).status = Status.CREATED
    · refine Or.inr ⟨hcar, hst, ?_⟩
      simp only [applyOp]
      rw [acceptContract_ok s sender cid hcar hst]
    · exact Or.inl (applyOp_accept_err keccak s sender cid _
        (acceptContract_err_status s sender cid hcar hst))
  · exact Or.inl (applyOp_accept_err keccak s sender cid _
      (acceptContract_err_auth s sender cid hcar))

theorem applyOp_verify_cases (keccak : Bytes → Hash) (s : TrackFlow)
    (sender : Address) (cid idx : Nat) (qr : Bytes) (sent : Bool) :
    applyOp keccak s (.verify sender cid idx qr sent) = s ∨
    ((s.lookup cid).status = Status.ACTIVE ∧
      ∃ (hidx : idx < (s.lookup cid).milestones.length),
        idx = (s.lookup cid).completedMilestones ∧
        (s.lookup cid).milestones[idx].completed = false ∧
        (s.lookup cid).milestones[idx].verifier = sender ∧
        keccak qr = (s.lookup cid).milestones[idx].qrHash ∧ sent = true ∧
        applyOp keccak s (.verify sender cid idx qr sent) =
          ⟨s.contracts.set cid
            (advance (s.lookup cid) idx (s.lookup cid).milestones[idx])⟩) := by
  by_cases hst : (s.lookup cid).status = Status.ACTIVE
  · by_cases hidx : idx < (s.lookup cid).milestones.length
    · by_cases hord : idx = (s.lookup cid).completedMilestones
      · by_cases hcomp : (s.lookup cid).milestones[idx].completed = true
        · exact Or.inl (applyOp_verify_err keccak s sender cid idx qr sent _
            (verifyMilestone_err_completed keccak s sender cid idx qr sent
              hst hidx hord hcomp))
        · have hcomp' : (s.lookup cid).milestones[idx].completed = false := by
            simpa using hcomp
          by_cases hver : (s.lookup cid).milestones[idx].verifier = sender
          · by_cases hqr : keccak qr = (s.lookup cid).milestones[idx].qrHash
            · cases sent with
              | false =>
                exact Or.inl (applyOp_verify_err keccak s sender cid idx qr false _
                  (verifyMilestone_err_sent keccak s sender cid idx qr
                    hst hidx hord hcomp' hver hqr))
              | true =>
                refine Or.inr ⟨hst, hidx, hord, hcomp', hver, hqr, rfl, ?_⟩
                simp only [applyOp]
                rw [verifyMilestone_ok keccak s sender cid idx qr
                  hst hidx hord hcomp' hver hqr]
            · exact Or.inl (applyOp_verify_err keccak s sender cid idx qr sent _
                (verifyMilestone_err_qr keccak s sender cid idx qr sent
                  hst hidx hord hcomp' hver hqr))
          · exact Or.inl (applyOp_verify_err keccak s sender cid idx qr sent _
              (verifyMilestone_err_auth keccak s sender cid idx qr sent
                hst hidx hord hcomp' hver))
      · exact Or.inl (applyOp_verify_err keccak s sender cid idx qr sent _
          (verifyMilestone_err_order keccak s sender cid idx qr sent hst hidx hord))
    · exact Or.inl (applyOp_verify_err keccak s sender cid idx qr sent _
        (verifyMilestone_err_range keccak s sender cid idx qr sent hst hidx))
  · exact Or.inl (applyOp_verify_err keccak s sender cid idx qr sent _
      (verifyMilestone_err_status keccak s sender cid idx qr sent hst))

theorem contractInv_activate (keccak : Bytes → Hash) (cid : Nat)
    (c : LogisticsContract) (hinv : contractInv keccak cid c)
    (hst : c.status = Status.CREATED) :
    contractInv keccak cid { c with status := Status.ACTIVE } := by
  obtain ⟨hp, hn, hcm, hcontig, hhash, hcr, hac, hco⟩ := hinv
  obtain ⟨hcm0, hrel0⟩ := hcr hst
  refine ⟨hp, hn, by simpa using hcm, by simpa using hcontig, by simpa using hhash,
    ?_, ?_, ?_⟩
  · intro h
    simp at h
  · intro _
    constructor
    · simpa [hcm0] using hn
    · simp [hrel0, hcm0]
  · intro h
    simp at h

theorem contractInv_advance (keccak : Bytes → Hash) (cid : Nat)
    (c : LogisticsContract) (idx : Nat)
    (hinv : contractInv keccak cid c)
    (hst : c.status = Status.ACTIVE)
    (hidx : idx < c.milestones.length)
    (hord : idx = c.completedMilestones) :
    contractInv keccak cid (advance c idx c.milestones[idx]) := by
  obtain ⟨hp, hn, hcm, hcontig, hhash, hcr, hac, hco⟩ := hinv
  obtain ⟨hcmlt, hrel⟩ := hac hst
  subst hord
  have hdiv : c.payment / c.milestones.length * c.milestones.length ≤ c.payment :=
    Nat.div_mul_le_self c.payment c.milestones.length
  have hmul : c.payment / c.milestones.length * c.completedMilestones ≤
      c.payment / c.milestones.length * c.milestones.length :=
    Nat.mul_le_mul_left _ hcm
  refine ⟨hp, ?_, ?_, ?_, ?_, ?_, ?_, ?_⟩
  · simpa [advance] using hn
  · simp only [advance, List.length_set]
    omega
  · intro i h
    simp only [advance, List.length_set] at h ⊢
    by_cases hi : i = c.completedMilestones
    · subst hi
      rw [List.getElem_set_self (by simpa using h)]
      simp
    · rw [List.getElem_set_ne (Ne.symm hi) (by simpa using h)]
      rw [hcontig i (by simpa using h)]
      have heq : (i < c.completedMilestones) = (i < c.completedMilestones + 1) := by
        apply propext
        omega
      simp only [heq]
  · intro i h
    simp only [advance, List.length_set] at h ⊢
    by_cases hi : i = c.completedMilestones
    · subst hi
      rw [List.getElem_set_self (by simpa using h)]
      simpa using hhash c.completedMilestones hcmlt
    · rw [List.getElem_set_ne (Ne.symm hi) (by simpa using h)]
      exact hhash i (by simpa using h)
  · intro h
    simp only [advance] at h
    split at h <;> simp_all
  · intro h
    simp only [advance] at h
    split at h
    · simp_all
    · rename_i hlast
      simp only [hst] at h
      refine ⟨?_, ?_⟩
      · simp only [advance, List.length_set]
        omega
      · simp only [advance, List.length_set]
        rw [if_neg hlast, hrel]
        ring
  · intro h
    simp only [advance] at h
    split at h
    · rename_i hlast
      refine ⟨?_, ?_⟩
      · simp only [advance, List.length_set]
        omega
      · simp only [advance, List.length_set]
        rw [if_pos hlast, hrel]
        omega
    · simp_all

theorem stateInv_set (keccak : Bytes → Hash) (s : TrackFlow) (cid : Nat)
    (c : LogisticsContract) (hs : stateInv keccak s)
    (hc : contractInv keccak cid c) :
    stateInv keccak ⟨s.contracts.set cid c⟩ := by
  intro cid' h'
  have hlen : cid' < s.contracts.length := by
    simpa using h'
  by_cases hi : cid' = cid
  · subst hi
    have : (⟨s.contracts.set cid' c⟩ : TrackFlow).contracts[cid'] = c :=
      List.getElem_set_self (l := s.contracts) (i := cid') (a := c)
        (by simpa using h')
    rw [this]
    exact hc
  · have : (⟨s.contracts.set cid c⟩ : TrackFlow).contracts[cid'] =
        s.contracts[cid'] := by
      simpa using List.getElem_set_ne (l := s.contracts) (a := c) (Ne.symm hi)
        (by simpa using h')
    rw [this]
    exact hs cid' hlen

theorem stateInv_applyOp (keccak : Bytes → Hash) (s : TrackFlow) (op : Op)
    (hs : stateInv keccak s) : stateInv keccak (applyOp keccak s op) := by
  cases op with
  | create sender carrier recipient locations verifiers value =>
    rcases applyOp_create_cases keccak s sender carrier recipient locations
        verifiers value with heq | ⟨hv, hc, hr, hl, hlen, heq⟩
    · rw [heq]; exact hs
    · rw [heq]
      intro cid h
      have hlt : cid < s.contracts.length + 1 := by simpa using h
      by_cases hcid : cid < s.contracts.length
      · have : (⟨s.contracts ++ [newRecord keccak s.contracts.length sender carrier
            recipient locations verifiers value]⟩ : TrackFlow).contracts[cid] =
            s.contracts[cid] :=
          List.getElem_append_left hcid
        rw [this]
        exact hs cid hcid
      · have hcid' : cid = s.contracts.length := by omega
        have hget : (⟨s.contracts ++ [newRecord keccak s.contracts.length sender carrier
            recipient locations verifiers value]⟩ : TrackFlow).contracts[cid] =
            newRecord keccak s.contracts.length sender carrier recipient
              locations verifiers value := by
          simpa using List.getElem_concat_length s.contracts _ cid hcid' (by simpa using h)
        rw [hget, hcid']
        exact newRecord_inv keccak s.contracts.length sender carrier recipient
          locations verifiers value hv hl hlen
  | accept sender cid =>
    rcases applyOp_accept_cases keccak s sender cid with heq | ⟨hcar, hst, heq⟩
    · rw [heq]; exact hs
    · rw [heq]
      by_cases hcid : cid < s.contracts.length
      · refine stateInv_set keccak s cid _ hs ?_
        rw [lookup_lt s cid hcid]
        exact contractInv_activate keccak cid _ (hs cid hcid)
          (by rw [← lookup_lt s cid hcid]; exact hst)
      · rw [List.set_eq_of_length_le (by omega)]
        exact hs
  | verify sender cid idx qr sent =>
    rcases applyOp_verify_cases keccak s sender cid idx qr sent with
      heq | ⟨hst, hidx, hord, hcomp, hver, hqr, hsent, heq⟩
    · rw [heq]; exact hs
    · rw [heq]
      have hcid : cid < s.contracts.length := by
        by_contra hge
        rw [lookup_ge s cid (by omega)] at hidx
        simp [emptyContract] at hidx
      refine stateInv_set keccak s cid _ hs ?_
      have hinvc : contractInv keccak cid (s.lookup cid) := by
        rw [lookup_lt s cid hcid]
        exact hs cid hcid
      exact contractInv_advance keccak cid (s.lookup cid) idx hinvc hst hidx hord

theorem stateInv_reachable (keccak : Bytes → Hash) (s : TrackFlow)
    (h : Reachable keccak s) : stateInv keccak s := by
  induction h with
  | init => exact stateInv_initial keccak
  | step s op _ ih => exact stateInv_applyOp keccak s op ih

theorem reachable_foldl (keccak : Bytes → Hash) (ops : List Op) (s : TrackFlow)
    (h : Reachable keccak s) : Reachable keccak (ops.foldl (applyOp keccak) s) := by
  induction ops generalizing s with
  | nil => exact h
  | cons op rest ih => exact ih (applyOp keccak s op) (Reachable.step s op h)

theorem reachable_execOps (keccak : Bytes → Hash) (ops : List Op) :
    Reachable keccak (execOps keccak ops) :=
  reachable_foldl keccak ops initialState Reachable.init

theorem lookup_inv (keccak : Bytes → Hash) (s : TrackFlow)
    (hreach : Reachable keccak s) (cid : Nat) (hcid : cid < s.contracts.length) :
    contractInv keccak cid (s.lookup cid) := by
  rw [lookup_lt s cid hcid]
  exact stateInv_reachable keccak s hreach cid hcid

theorem contractInv_released_le (keccak : Bytes → Hash) (cid : Nat)
    (c : LogisticsContract) (hinv : contractInv keccak cid c) :
    c.releasedAmount ≤ c.payment ∧
    (c.releasedAmount = c.payment ↔ c.status = Status.COMPLETED) := by
  obtain ⟨hp, hn, hcm, hcontig, hhash, hcr, hac, hco⟩ := hinv
  cases hstatus : c.status with
  | CREATED =>
    obtain ⟨hcm0, hrel0⟩ := hcr hstatus
    refine ⟨by omega, ?_⟩
    constructor
    · intro h
      omega
    · intro h
      simp [hstatus] at h
  | ACTIVE =>
    obtain ⟨hcmlt, hrel⟩ := hac hstatus
    have hchain : c.payment / c.milestones.length * c.completedMilestones +
        c.payment / c.milestones.length ≤ c.payment := by
      calc c.payment / c.milestones.length * c.completedMilestones +
            c.payment / c.milestones.length
          = c.payment / c.milestones.length * (c.completedMilestones + 1) := by ring
        _ ≤ c.payment / c.milestones.length * c.milestones.length :=
            Nat.mul_le_mul_left _ (by omega)
        _ ≤ c.payment := Nat.div_mul_le_self c.payment c.milestones.length
    have hlt : c.releasedAmount < c.payment := by
      by_cases hz : c.payment / c.milestones.length = 0
      · rw [hrel, hz]
        simpa using hp
      · calc c.releasedAmount
            = c.payment / c.milestones.length * c.completedMilestones := hrel
          _ < c.payment / c.milestones.length * c.completedMilestones +
                c.payment / c.milestones.length :=
              Nat.lt_add_of_pos_right (Nat.pos_of_ne_zero hz)
          _ ≤ c.payment := hchain
    refine ⟨Nat.le_of_lt hlt, ?_⟩
    constructor
    · intro h
      omega
    · intro h
      simp [hstatus] at h
  | COMPLETED =>
    obtain ⟨hcmn, hrelp⟩ := hco hstatus
    exact ⟨Nat.le_of_eq hrelp, by simp [hrelp, hstatus]⟩

/-- C3: in every reachable state of the registry, every created contract
record satisfies `releasedAmount ≤ payment`, and `releasedAmount = payment`
holds exactly when the record's status is COMPLETED; this is an invariant
preserved by every operation (create, accept, verifyMilestone). -/
theorem released_bounded_and_exact (keccak : Bytes → Hash) (s : TrackFlow)
    (hreach : Reachable keccak s) (cid : Nat) (hcid : cid < s.contracts.length) :
    (s.lookup cid).releasedAmount ≤ (s.lookup cid).payment ∧
    ((s.lookup cid).releasedAmount = (s.lookup cid).payment ↔
      (s.lookup cid).status = Status.COMPLETED) :=
  contractInv_released_le keccak cid (s.lookup cid)
    (lookup_inv keccak s hreach cid hcid)

/-- C2: verifying any milestone index other than `completedMilestones`
always fails and leaves the state untouched, whatever the caller and
presented bytes; when the contract is ACTIVE and the index is in range,
the failure is precisely the OrderError revert `"Out of order"`. -/
theorem verify_order_enforced (keccak : Bytes → Hash) (s : TrackFlow)
    (sender : Address) (cid idx : Nat) (qr : Bytes) (sent : Bool)
    (hord : idx ≠ (s.lookup cid).completedMilestones) :
    (verifyMilestone keccak s sender cid idx qr sent).isOk = false ∧
    applyOp keccak s (.verify sender cid idx qr sent) = s ∧
    ((s.lookup cid).status = Status.ACTIVE →
      idx < (s.lookup cid).milestones.length →
      verifyMilestone keccak s sender cid idx qr sent = .error "Out of order") := by
  by_cases hst : (s.lookup cid).status = Status.ACTIVE
  · by_cases hidx : idx < (s.lookup cid).milestones.length
    · have he := verifyMilestone_err_order keccak s sender cid idx qr sent hst hidx hord
      exact ⟨by rw [he]; rfl, applyOp_verify_err keccak s sender cid idx qr sent _ he,
        fun _ _ => he⟩
    · have he := verifyMilestone_err_range keccak s sender cid idx qr sent hst hidx
      exact ⟨by rw [he]; rfl, applyOp_verify_err keccak s sender cid idx qr sent _ he,
        fun _ h => absurd h hidx⟩
  · have he := verifyMilestone_err_status keccak s sender cid idx qr sent hst
    exact ⟨by rw [he]; rfl, applyOp_verify_err keccak s sender cid idx qr sent _ he,
      fun h _ => absurd h hst⟩

/-- C4: when every check passes but the fund transfer to the carrier
fails, `verifyMilestone` fails with the PaymentError revert
`"Failed to send payment"` and the committed state is exactly the
pre-call state: no completed flag, counter, released total or status
survives from the aborted call. -/
theorem verify_transfer_rollback (keccak : Bytes → Hash) (s : TrackFlow)
    (sender : Address) (cid idx : Nat) (qr : Bytes)
    (hst : (s.lookup cid).status = Status.ACTIVE)
    (hidx : idx < (s.lookup cid).milestones.length)
    (hord : idx = (s.lookup cid).completedMilestones)
    (hcomp : (s.lookup cid).milestones[idx].completed = false)
    (hver : (s.lookup cid).milestones[idx].verifier = sender)
    (hqr : keccak qr = (s.lookup cid).milestones[idx].qrHash) :
    verifyMilestone keccak s sender cid idx qr false =
      .error "Failed to send payment" ∧
    applyOp keccak s (.verify sender cid idx qr false) = s := by
  have he := verifyMilestone_err_sent keccak s sender cid idx qr
    hst hidx hord hcomp hver hqr
  exact ⟨he, applyOp_verify_err keccak s sender cid idx qr false _ he⟩

/-- C7: `acceptContract` succeeds exactly when the caller is the record's
carrier and the status is CREATED, in which case the new registry differs
only in that record's status, which becomes ACTIVE; a non-carrier caller
gets the AuthorizationError revert `"Not the carrier"`, the carrier in a
non-CREATED status gets the StateError revert `"Invalid status"`, and both
failures leave the state untouched. -/
theorem acceptContract_exact (keccak : Bytes → Hash) (s : TrackFlow)
    (sender : Address) (cid : Nat) (hcid : cid < s.contracts.length) :
    ((acceptContract s sender cid).isOk = true ↔
      (s.lookup cid).carrier = sender ∧ (s.lookup cid).status = Status.CREATED) ∧
    ((s.lookup cid).carrier ≠ sender →
      acceptContract s sender cid = .error "Not the carrier" ∧
      applyOp keccak s (.accept sender cid) = s) ∧
    ((s.lookup cid).carrier = sender → (s.lookup cid).status ≠ Status.CREATED →
      acceptContract s sender cid = .error "Invalid status" ∧
      applyOp keccak s (.accept sender cid) = s) ∧
    ((s.lookup cid).carrier = sender → (s.lookup cid).status = Status.CREATED →
      acceptContract s sender cid =
        .ok ⟨s.contracts.set cid { s.lookup cid with status := Status.ACTIVE }⟩ ∧
      TrackFlow.lookup
        ⟨s.contracts.set cid { s.lookup cid with status := Status.ACTIVE }⟩ cid =
          { s.lookup cid with status := Status.ACTIVE } ∧
      ∀ cid' : Nat, cid' ≠ cid →
        TrackFlow.lookup
          ⟨s.contracts.set cid { s.lookup cid with status := Status.ACTIVE }⟩ cid' =
            s.lookup cid') := by
  refine ⟨?_, ?_, ?_, ?_⟩
  · constructor
    · intro h
      by_cases hcar : (s.lookup cid).carrier = sender
      · by_cases hst : (s.lookup cid).status = Status.CREATED
        · exact ⟨hcar, hst⟩
        · rw [acceptContract_err_status s sender cid hcar hst] at h
          simp [Except.isOk, Except.toBool] at h
      · rw [acceptContract_err_auth s sender cid hcar] at h
        simp [Except.isOk, Except.toBool] at h
    · rintro ⟨hcar, hst⟩
      rw [acceptContract_ok s sender cid hcar hst]
      rfl
  · intro hcar
    have he := acceptContract_err_auth s sender cid hcar
    exact ⟨he, applyOp_accept_err keccak s sender cid _ he⟩
  · intro hcar hst
    have he := acceptContract_err_status s sender cid hcar hst
    exact ⟨he, applyOp_accept_err keccak s sender cid _ he⟩
  · intro hcar hst
    exact ⟨acceptContract_ok s sender cid hcar hst,
      lookup_set_self s _ cid hcid,
      fun cid' h' => lookup_set_ne s _ cid cid' h'⟩

/-- C8: creation rejects a zero escrow, a null carrier or recipient, an
empty milestone list and mismatched array lengths with a ValidationError
revert, leaving the registry untouched; on success it returns the next
sequential id (the running counter, which then advances by one), and
persists a record with status CREATED, `releasedAmount = 0`, one milestone
per location, every milestone not yet completed. -/
theorem createContract_exact (keccak : Bytes → Hash) (s : TrackFlow)
    (sender carrier recipient : Address) (locations : List Bytes)
    (verifiers : List Address) (value : Nat) :
    ((value = 0 ∨ carrier = 0 ∨ recipient = 0 ∨ locations = [] ∨
        locations.length ≠ verifiers.length) →
      (createContract keccak s sender carrier recipient locations verifiers
        value).isOk = false ∧
      applyOp keccak s (.create sender carrier recipient locations verifiers value)
        = s) ∧
    (value ≠ 0 → carrier ≠ 0 → recipient ≠ 0 → locations ≠ [] →
      locations.length = verifiers.length →
      createContract keccak s sender carrier recipient locations verifiers value =
        .ok (⟨s.contracts ++ [newRecord keccak s.nextContractId sender carrier
          recipient locations verifiers value]⟩, s.nextContractId) ∧
      TrackFlow.nextContractId ⟨s.contracts ++ [newRecord keccak s.nextContractId
        sender carrier recipient locations verifiers value]⟩ =
          s.nextContractId + 1 ∧
      (newRecord keccak s.nextContractId sender carrier recipient locations
        verifiers value).status = Status.CREATED ∧
      (newRecord keccak s.nextContractId sender carrier recipient locations
        verifiers value).releasedAmount = 0 ∧
      (newRecord keccak s.nextContractId sender carrier recipient locations
        verifiers value).milestones.length = locations.length ∧
      ∀ i (h : i < (newRecord keccak s.nextContractId sender carrier recipient
          locations verifiers value).milestones.length),
        (newRecord keccak s.nextContractId sender carrier recipient locations
          verifiers value).milestones[i].completed = false) := by
  constructor
  · intro hbad
    obtain ⟨e, he⟩ := createContract_err keccak s sender carrier recipient
      locations verifiers value hbad
    exact ⟨by rw [he]; rfl,
      applyOp_create_err keccak s sender carrier recipient locations verifiers
        value e he⟩
  · intro hv hc hr hl hlen
    refine ⟨createContract_ok keccak s sender carrier recipient locations verifiers
        value hv hc hr hl hlen, ?_, rfl, rfl, ?_, ?_⟩
    · simp [TrackFlow.nextContractId]
    · simp [newRecord, mkMilestones, hlen]
    · intro i h
      simp only [newRecord] at h ⊢
      simp [mkMilestones, List.getElem_zipWith]

/-- C9 counterexample: contract id 0 has never been created in the initial
state, yet `getContract` does not fail — the source has no existence
check and returns the zeroed default record for an unknown id. -/
theorem getContract_unknown_id_returns_default :
    initialState.contracts.length = 0 ∧
    getContract initialState 0 = (0, 0, 0, 0, Status.CREATED, 0, 0) :=
  ⟨rfl, rfl⟩

/-- C9 (amended): `getContract` and `getMilestone` are read-only lookups
(pure functions of the state); `getMilestone` fails with the
`"Invalid milestone"` revert exactly when the index is out of range for
the stored record — in particular for every never-created id, whose
record has zero milestones — while `getContract` never fails and returns
the zeroed default record for a never-created id. -/
theorem lookups_range_checked (s : TrackFlow) (cid idx : Nat) :
    ((getMilestone s cid idx).isOk = true ↔
      idx < (s.lookup cid).milestones.length) ∧
    (¬ idx < (s.lookup cid).milestones.length →
      getMilestone s cid idx = .error "Invalid milestone") ∧
    (s.contracts.length ≤ cid →
      getMilestone s cid idx = .error "Invalid milestone" ∧
      getContract s cid = (0, 0, 0, 0, Status.CREATED, 0, 0)) := by
  refine ⟨?_, ?_, ?_⟩
  · constructor
    · intro h
      by_cases hidx : idx < (s.lookup cid).milestones.length
      · exact hidx
      · simp [getMilestone, hidx, Except.isOk, Except.toBool] at h
    · intro hidx
      simp [getMilestone, hidx, Except.isOk, Except.toBool]
  · intro hidx
    simp [getMilestone, hidx]
  · intro hge
    have hempty := lookup_ge s cid hge
    constructor
    · simp [getMilestone, hempty, emptyContract]
    · simp [getContract, hempty, emptyContract]

set_option maxRecDepth 8000 in
/-- C1: a successful `verifyMilestone` on a non-final milestone releases
exactly `payment / n` (floor division, `n` the milestone count) and on the
final milestone exactly `payment - releasedAmount`, so that after the
final milestone the released total equals `payment` exactly and the status
is COMPLETED; concretely, escrow 100 over milestones A, B, C releases
33, 33, 34 and ends COMPLETED, and a single-milestone contract with
escrow 7 releases the whole escrow in its one verification. -/
theorem verify_payment_split :
    (∀ (keccak : Bytes → Hash) (s : TrackFlow), Reachable keccak s →
      ∀ (sender : Address) (cid idx : Nat) (qr : Bytes)
        (hst : (s.lookup cid).status = Status.ACTIVE)
        (hidx : idx < (s.lookup cid).milestones.length),
        idx = (s.lookup cid).completedMilestones →
        (s.lookup cid).milestones[idx].verifier = sender →
        keccak qr = (s.lookup cid).milestones[idx].qrHash →
        ∃ t, verifyMilestone keccak s sender cid idx qr true = .ok t ∧
          (idx ≠ (s.lookup cid).milestones.length - 1 →
            (t.lookup cid).releasedAmount = (s.lookup cid).releasedAmount +
              (s.lookup cid).payment / (s.lookup cid).milestones.length ∧
            (t.lookup cid).status = Status.ACTIVE) ∧
          (idx = (s.lookup cid).milestones.length - 1 →
            (t.lookup cid).releasedAmount = (s.lookup cid).payment ∧
            (t.lookup cid).status = Status.COMPLETED)) ∧
    (((demoState 3).lookup 0).releasedAmount = 33 ∧
      ((demoState 4).lookup 0).releasedAmount = 66 ∧
      ((demoState 5).lookup 0).releasedAmount = 100 ∧
      ((demoState 5).lookup 0).status = Status.COMPLETED) ∧
    (((execOps demoHash soloOps).lookup 0).payment = 7 ∧
      ((execOps demoHash soloOps).lookup 0).releasedAmount = 7 ∧
      ((execOps demoHash soloOps).lookup 0).status = Status.COMPLETED) := by
  refine ⟨?_, by decide, by decide⟩
  intro keccak s hreach sender cid idx qr hst hidx hord hver hqr
  have hcid : cid < s.contracts.length := by
    by_contra hge
    rw [lookup_ge s cid (by omega)] at hidx
    simp [emptyContract] at hidx
  have hinv := lookup_inv keccak s hreach cid hcid
  obtain ⟨hp, hn, hcm, hcontig, hhash, hcr, hac, hco⟩ := hinv
  have hcomp : (s.lookup cid).milestones[idx].completed = false := by
    rw [hcontig idx hidx]
    simp [hord]
  have hok := verifyMilestone_ok keccak s sender cid idx qr
    hst hidx hord hcomp hver hqr
  refine ⟨_, hok, ?_, ?_⟩
  · intro hlast
    rw [lookup_set_self s _ cid hcid]
    constructor
    · simp [advance, if_neg hlast]
    · simp [advance, if_neg hlast, hst]
  · intro hlast
    rw [lookup_set_self s _ cid hcid]
    have hle : (s.lookup cid).releasedAmount ≤ (s.lookup cid).payment :=
      (contractInv_released_le keccak cid (s.lookup cid)
        ⟨hp, hn, hcm, hcontig, hhash, hcr, hac, hco⟩).1
    constructor
    · simp only [advance, if_pos hlast]
      omega
    · simp [advance, if_pos hlast]

/-- C5: the stored commitment hash of every milestone of every reachable
contract equals the digest of `(contractId, location, verifier)` computed
at creation (locations, verifiers and hashes are never mutated); the pure
commitment check accepts presented bytes iff their hash equals that stored
hash; and presenting bytes that do not hash to the commitment always makes
`verifyMilestone` fail with no state change — with the VerificationError
revert `"Invalid QR code"` when every earlier check passes. -/
theorem commitment_scheme (keccak : Bytes → Hash) (s : TrackFlow)
    (hreach : Reachable keccak s) (cid : Nat) (hcid : cid < s.contracts.length)
    (i : Nat) (hi : i < (s.lookup cid).milestones.length) :
    (∀ qr : Bytes, qrCheck keccak qr (s.lookup cid).milestones[i] = true ↔
      keccak qr = (s.lookup cid).milestones[i].qrHash) ∧
    (s.lookup cid).milestones[i].qrHash =
      keccak (encodePacked cid (s.lookup cid).milestones[i].location
        (s.lookup cid).milestones[i].verifier) ∧
    (∀ (sender : Address) (qr : Bytes) (sent : Bool),
      keccak qr ≠ (s.lookup cid).milestones[i].qrHash →
      (verifyMilestone keccak s sender cid i qr sent).isOk = false ∧
      applyOp keccak s (.verify sender cid i qr sent) = s ∧
      ((s.lookup cid).status = Status.ACTIVE →
        i = (s.lookup cid).completedMilestones →
        (s.lookup cid).milestones[i].verifier = sender →
        verifyMilestone keccak s sender cid i qr sent = .error "Invalid QR code")) := by
  obtain ⟨hp, hn, hcm, hcontig, hhash, hcr, hac, hco⟩ :=
    lookup_inv keccak s hreach cid hcid
  refine ⟨?_, hhash i hi, ?_⟩
  · intro qr
    simp [qrCheck]
  · intro sender qr sent hqr
    by_cases hst : (s.lookup cid).status = Status.ACTIVE
    · by_cases hord : i = (s.lookup cid).completedMilestones
      · have hcomp : (s.lookup cid).milestones[i].completed = false := by
          rw [hcontig i hi]
          simp [hord]
        by_cases hver : (s.lookup cid).milestones[i].verifier = sender
        · have he := verifyMilestone_err_qr keccak s sender cid i qr sent
            hst hi hord hcomp hver hqr
          exact ⟨by rw [he]; rfl,
            applyOp_verify_err keccak s sender cid i qr sent _ he,
            fun _ _ _ => he⟩
        · have he := verifyMilestone_err_auth keccak s sender cid i qr sent
            hst hi hord hcomp hver
          exact ⟨by rw [he]; rfl,
            applyOp_verify_err keccak s sender cid i qr sent _ he,
            fun _ _ hv => absurd hv hver⟩
      · have he := verifyMilestone_err_order keccak s sender cid i qr sent
          hst hi hord
        exact ⟨by rw [he]; rfl,
          applyOp_verify_err keccak s sender cid i qr sent _ he,
          fun _ ho _ => absurd ho hord⟩
    · have he := verifyMilestone_err_status keccak s sender cid i qr sent hst
      exact ⟨by rw [he]; rfl,
        applyOp_verify_err keccak s sender cid i qr sent _ he,
        fun hs' _ _ => absurd hs' hst⟩

/-- C10: whenever two milestone indices of the same reachable contract
carry the same location string and the same verifier identity, their
stored commitment hashes are equal — the milestone index is not part of
the hash preimage — so any presented bytes the commitment check accepts
for one are also accepted for the other. -/
theorem duplicate_preimage_same_hash (keccak : Bytes → Hash) (s : TrackFlow)
    (hreach : Reachable keccak s) (cid : Nat) (hcid : cid < s.contracts.length)
    (i j : Nat) (_hij : i ≠ j)
    (hi : i < (s.lookup cid).milestones.length)
    (hj : j < (s.lookup cid).milestones.length)
    (hloc : (s.lookup cid).milestones[i].location =
      (s.lookup cid).milestones[j].location)
    (hver : (s.lookup cid).milestones[i].verifier =
      (s.lookup cid).milestones[j].verifier) :
    (s.lookup cid).milestones[i].qrHash = (s.lookup cid).milestones[j].qrHash ∧
    ∀ qr : Bytes, qrCheck keccak qr (s.lookup cid).milestones[i] = true ↔
      qrCheck keccak qr (s.lookup cid).milestones[j] = true := by
  obtain ⟨hp, hn, hcm, hcontig, hhash, hcr, hac, hco⟩ :=
    lookup_inv keccak s hreach cid hcid
  have heq : (s.lookup cid).milestones[i].qrHash =
      (s.lookup cid).milestones[j].qrHash := by
    rw [hhash i hi, hhash j hj, hloc, hver]
  exact ⟨heq, fun qr => by simp [qrCheck, heq]⟩

/-- C6: one step of any operation moves a contract's status along
CREATED → ACTIVE → COMPLETED only: it either leaves it unchanged, takes
CREATED to ACTIVE, or takes ACTIVE to COMPLETED (never backward, never
skipping ACTIVE); once COMPLETED it stays COMPLETED; and a step that
produces COMPLETED from a non-COMPLETED status can only be a successful
`verifyMilestone` of that contract's final milestone index. -/
theorem status_step_linear (keccak : Bytes → Hash) (s : TrackFlow) (op : Op)
    (cid : Nat) :
    (((applyOp keccak s op).lookup cid).status = (s.lookup cid).status ∨
      ((s.lookup cid).status = Status.CREATED ∧
        ((applyOp keccak s op).lookup cid).status = Status.ACTIVE) ∨
      ((s.lookup cid).status = Status.ACTIVE ∧
        ((applyOp keccak s op).lookup cid).status = Status.COMPLETED)) ∧
    ((s.lookup cid).status = Status.COMPLETED →
      ((applyOp keccak s op).lookup cid).status = Status.COMPLETED) ∧
    (((applyOp keccak s op).lookup cid).status = Status.COMPLETED →
      (s.lookup cid).status = Status.COMPLETED ∨
      ∃ (sender : Address) (qr : Bytes),
        op = Op.verify sender cid ((s.lookup cid).milestones.length - 1) qr true) := by
  have core :
      ((applyOp keccak s op).lookup cid).status = (s.lookup cid).status ∨
      ((s.lookup cid).status = Status.CREATED ∧
        ((applyOp keccak s op).lookup cid).status = Status.ACTIVE) ∨
      ((s.lookup cid).status = Status.ACTIVE ∧
        ((applyOp keccak s op).lookup cid).status = Status.COMPLETED ∧
        ∃ (sender : Address) (qr : Bytes),
          op = Op.verify sender cid ((s.lookup cid).milestones.length - 1) qr true) := by
    cases op with
    | create sender carrier recipient locations verifiers value =>
      rcases applyOp_create_cases keccak s sender carrier recipient locations
          verifiers value with heq | ⟨hv, hc, hr, hl, hlen, heq⟩
      · rw [heq]
        exact Or.inl rfl
      · rw [heq]
        by_cases hcid : cid < s.contracts.length
        · rw [lookup_append_lt s _ cid hcid]
          exact Or.inl rfl
        · by_cases hcid2 : cid = s.contracts.length
          · subst hcid2
            rw [lookup_append_self s _, lookup_ge s _ (by omega)]
            exact Or.inl rfl
          · rw [lookup_ge s cid (by omega)]
            rw [TrackFlow.lookup, List.getD_eq_default _ _ (by simp; omega)]
            exact Or.inl rfl
    | accept sender cid₂ =>
      rcases applyOp_accept_cases keccak s sender cid₂ with heq | ⟨hcar, hst, heq⟩
      · rw [heq]
        exact Or.inl rfl
      · rw [heq]
        by_cases hi : cid = cid₂
        · subst hi
          by_cases hcid : cid < s.contracts.length
          · rw [lookup_set_self s _ cid hcid]
            exact Or.inr (Or.inl ⟨hst, rfl⟩)
          · rw [List.set_eq_of_length_le (by omega)]
            exact Or.inl rfl
        · rw [lookup_set_ne s _ cid₂ cid hi]
          exact Or.inl rfl
    | verify sender cid₂ idx qr sent =>
      rcases applyOp_verify_cases keccak s sender cid₂ idx qr sent with
        heq | ⟨hst, hidx, hord, hcomp, hver, hqr, hsent, heq⟩
      · rw [heq]
        exact Or.inl rfl
      · rw [heq]
        by_cases hi : cid = cid₂
        · subst hi
          have hcid : cid < s.contracts.length := by
            by_contra hge
            rw [lookup_ge s cid (by omega)] at hidx
            simp [emptyContract] at hidx
          rw [lookup_set_self s _ cid hcid]
          by_cases hlast : idx = (s.lookup cid).milestones.length - 1
          · refine Or.inr (Or.inr ⟨hst, ?_, sender, qr, ?_⟩)
            · simp [advance, if_pos hlast]
            · rw [hsent, hlast]
          · refine Or.inl ?_
            simp [advance, if_neg hlast]
        · rw [lookup_set_ne s _ cid₂ cid hi]
          exact Or.inl rfl
  refine ⟨?_, ?_, ?_⟩
  · rcases core with h | h | ⟨h1, h2, _⟩
    · exact Or.inl h
    · exact Or.inr (Or.inl h)
    · exact Or.inr (Or.inr ⟨h1, h2⟩)
  · intro h
    rcases core with hc | ⟨h1, _⟩ | ⟨h1, _, _⟩
    · rw [hc, h]
    · rw [h] at h1
      exact absurd h1 (by simp)
    · rw [h] at h1
      exact absurd h1 (by simp)
  · intro h
    rcases core with hc | ⟨h1, h2⟩ | ⟨h1, h2, hop⟩
    · rw [hc] at h
      exact Or.inl h
    · rw [h2] at h
      exact absurd h (by simp)
    · exact Or.inr hop

set_option maxRecDepth 8000 in
theorem verify_payment_split_witness :
    ∃ t, verifyMilestone demoHash (demoState 2) 4 0 0 (encodePacked 0 [65] 4) true
        = .ok t ∧
      ((0 : Nat) ≠ ((demoState 2).lookup 0).milestones.length - 1 →
        (t.lookup 0).releasedAmount = ((demoState 2).lookup 0).releasedAmount +
          ((demoState 2).lookup 0).payment /
            ((demoState 2).lookup 0).milestones.length ∧
        (t.lookup 0).status = Status.ACTIVE) ∧
      ((0 : Nat) = ((demoState 2).lookup 0).milestones.length - 1 →
        (t.lookup 0).releasedAmount = ((demoState 2).lookup 0).payment ∧
        (t.lookup 0).status = Status.COMPLETED) :=
  verify_payment_split.1 demoHash (demoState 2)
    (reachable_execOps demoHash (demoOps.take 2)) 4 0 0 (encodePacked 0 [65] 4)
    (by decide) (by decide) (by decide) (by decide) (by decide)

set_option maxRecDepth 8000 in
theorem verify_order_enforced_witness :
    (verifyMilestone demoHash (demoState 2) 5 0 1 (encodePacked 0 [66] 5) true).isOk
        = false ∧
    applyOp demoHash (demoState 2) (.verify 5 0 1 (encodePacked 0 [66] 5) true)
        = demoState 2 ∧
    (((demoState 2).lookup 0).status = Status.ACTIVE →
      1 < ((demoState 2).lookup 0).milestones.length →
      verifyMilestone demoHash (demoState 2) 5 0 1 (encodePacked 0 [66] 5) true
        = .error "Out of order") :=
  verify_order_enforced demoHash (demoState 2) 5 0 1 (encodePacked 0 [66] 5) true
    (by decide)

set_option maxRecDepth 8000 in
theorem released_bounded_and_exact_witness :
    ((demoState 3).lookup 0).releasedAmount ≤ ((demoState 3).lookup 0).payment ∧
    (((demoState 3).lookup 0).releasedAmount = ((demoState 3).lookup 0).payment ↔
      ((demoState 3).lookup 0).status = Status.COMPLETED) :=
  released_bounded_and_exact demoHash (demoState 3)
    (reachable_execOps demoHash (demoOps.take 3)) 0 (by decide)

set_option maxRecDepth 8000 in
theorem verify_transfer_rollback_witness :
    verifyMilestone demoHash (demoState 2) 4 0 0 (encodePacked 0 [65] 4) false
        = .error "Failed to send payment" ∧
    applyOp demoHash (demoState 2) (.verify 4 0 0 (encodePacked 0 [65] 4) false)
        = demoState 2 :=
  verify_transfer_rollback demoHash (demoState 2) 4 0 0 (encodePacked 0 [65] 4)
    (by decide) (by decide) (by decide) (by decide) (by decide) (by decide)

set_option maxRecDepth 8000 in
theorem commitment_scheme_witness :
    (((demoState 2).lookup 0).milestones.get ⟨0, by decide⟩).qrHash =
      demoHash (encodePacked 0
        (((demoState 2).lookup 0).milestones.get ⟨0, by decide⟩).location
        (((demoState 2).lookup 0).milestones.get ⟨0, by decide⟩).verifier) :=
  (commitment_scheme demoHash (demoState 2)
    (reachable_execOps demoHash (demoOps.take 2)) 0 (by decide) 0 (by decide)).2.1

set_option maxRecDepth 8000 in
theorem status_step_linear_witness :
    ((demoState 5).lookup 0).status = Status.COMPLETED ∧
    ((applyOp demoHash (demoState 5) (.accept 2 0)).lookup 0).status
        = Status.COMPLETED :=
  ⟨by decide,
    (status_step_linear demoHash (demoState 5) (.accept 2 0) 0).2.1 (by decide)⟩

set_option maxRecDepth 8000 in
theorem acceptContract_exact_witness :
    (acceptContract (demoState 1) 2 0).isOk = true ↔
      ((demoState 1).lookup 0).carrier = 2 ∧
      ((demoState 1).lookup 0).status = Status.CREATED :=
  (acceptContract_exact demoHash (demoState 1) 2 0 (by decide)).1

set_option maxRecDepth 8000 in
theorem createContract_exact_witness :
    createContract demoHash initialState 10 2 3 [[68]] [4] 7 =
      .ok (⟨initialState.contracts ++ [newRecord demoHash
        initialState.nextContractId 10 2 3 [[68]] [4] 7]⟩,
        initialState.nextContractId) :=
  ((createContract_exact demoHash initialState 10 2 3 [[68]] [4] 7).2
    (by decide) (by decide) (by decide) (by decide) (by decide)).1

theorem lookups_range_checked_witness :
    getMilestone initialState 0 5 = .error "Invalid milestone" ∧
    getContract initialState 0 = (0, 0, 0, 0, Status.CREATED, 0, 0) :=
  (lookups_range_checked initialState 0 5).2.2 (by decide)

set_option maxRecDepth 8000 in
theorem duplicate_preimage_same_hash_witness :
    (((execOps demoHash dupOps).lookup 0).milestones.get ⟨0, by decide⟩).qrHash =
      (((execOps demoHash dupOps).lookup 0).milestones.get ⟨1, by decide⟩).qrHash :=
  (duplicate_preimage_same_hash demoHash (execOps demoHash dupOps)
    (reachable_execOps demoHash dupOps) 0 (by decide) 0 1 (by decide) (by decide)
    (by decide) (by decide) (by decide)).1

